import Mathlib

/-!
Verification development for the `md-repo` CPU stress-test tool.

The repository has two source files:
* `crates/md_hardware/src/lib.rs` — the stress-test engine (`CpuExplosion`,
  `stress_test_cpu`, `fibonnaci_compute_blocking`) and the telemetry wrapper;
* `src/main.rs` — the terminal application state machine (`App`, its event
  loop, `set_total_duration`, `reset_for_input`, `update_data`,
  `avg_percent_usage_cpu`).

This file shallowly embeds those parts and proves (or refutes) the frozen
claims about them.  Machine integers (`u64`, `usize`) are modelled as `Nat`
with explicit `% 2 ^ 64` where overflow matters; `f64` chart values are
modelled by `FpVal` (an exact rational, NaN, or a signed infinity — the only
IEEE features the program can exercise on its inputs); fallible parsing
returns `Option`.
-/

namespace MdRepo

/-! ## Engine model: `crates/md_hardware/src/lib.rs` -/

/-- Constant `SCORE_UNIT` from lib.rs line 47: `const SCORE_UNIT: u64 = 1000000;`. -/
def SCORE_UNIT : Nat := 1000000

/-- One more than the largest `u64`; `checked_add` fails at this bound. -/
def U64_SIZE : Nat := 2 ^ 64

/-- The mutable locals of one worker running `fibonnaci_compute_blocking`
(lib.rs lines 88-91): the Fibonacci pair `a`, `b` and the two counters. -/
structure WorkerState where
  a : Nat
  b : Nat
  local_score : Nat
  converted_score : Nat
  deriving Repr, DecidableEq

/-- Initial worker locals: `a = 0`, `b = 1`, both scores `0`
(lib.rs lines 88-91). -/
def workerInit : WorkerState :=
  { a := 0, b := 1, local_score := 0, converted_score := 0 }

/-- One iteration of the worker loop body after the two break checks
(lib.rs lines 102-118): `checked_add` advances the Fibonacci pair or resets
it to `(0, 1)` on overflow; `local_score` is incremented and, on reaching
`SCORE_UNIT`, folded into `converted_score` and reset to `0`. -/
def workerStep (s : WorkerState) : WorkerState :=
  let ab : Nat × Nat :=
    if s.a + s.b < U64_SIZE then (s.b, s.a + s.b) else (0, 1)
  let ls := s.local_score + 1
  if ls ≥ SCORE_UNIT then
    { a := ab.1, b := ab.2, local_score := 0,
      converted_score := s.converted_score + 1 }
  else
    { a := ab.1, b := ab.2, local_score := ls,
      converted_score := s.converted_score }

/-- The worker locals after `n` completed loop iterations (the loop exits via
the stop-signal or timeout check, both of which leave the locals untouched,
so a whole run of `fibonnaci_compute_blocking` that performed `n` iterations
ends in state `workerRun n`). -/
def workerRun (n : Nat) : WorkerState :=
  workerStep^[n] workerInit

/-- One worker's merge of its converted score into the shared `AtomicU64`
(lib.rs lines 121-122), collapsed into a single addition.  This serialized
form is NOT faithful in general: the program's epilogue is a separate atomic
`load` and `store` between which another worker may run (the faithful
two-step form is `mergeStep` below), and it elides the `u64` wrap of
`cur_value + converted_score` (unreachable for realistic scores).  It is
retained solely for the degenerate run with zero workers, in which no merge
executes at all. -/
def mergeScore (score : Nat) (converted : Nat) : Nat := score + converted

/-- What `JoinSet::join_next` reports for one spawned worker (lib.rs lines
73-78): `completed n` when the task ran `fibonnaci_compute_blocking` to the
end having performed `n` loop iterations (so its merge happened), `panicked`
when the task panicked before reaching its merge (`join_next` yields `Err`). -/
inductive WorkerOutcome where
  | completed (iters : Nat)
  | panicked
  deriving Repr, DecidableEq

/-- The score a worker merges into the shared aggregate: its converted score
after its iterations for a completed worker, nothing (zero) for a panicked
worker, which never reaches lib.rs line 122. -/
def contribution : WorkerOutcome → Nat
  | .completed n => (workerRun n).converted_score
  | .panicked => 0

/-- The join barrier of `stress_test_cpu` (lib.rs lines 73-78) together with
the workers' merges serialized one after another: every spawned worker is
drained from the `JoinSet`; a completed worker has merged its converted
score into the shared score, a panicked one merged nothing and is logged via
`eprintln!`.  Returns the final shared score (lib.rs line 80) and the error
log.  Because it serializes the merges, `joinAll` matches the program only
when no merge epilogues interleave — in particular when no worker is spawned
at all, the only use kept below; merge epilogues that may interleave are
modelled by `mergeStep` and `runMergeSchedule`. -/
def joinAll : Nat → List String → List WorkerOutcome → Nat × List String
  | score, log, [] => (score, log)
  | score, log, .completed n :: rest =>
      joinAll (mergeScore score (workerRun n).converted_score) log rest
  | score, log, .panicked :: rest =>
      joinAll score (log ++ ["A task panicked"]) rest

/-- Function `CpuExplosion::stress_test_cpu(duration_sec, cpu_cores)` (lib.rs lines
57-84): spawns one worker per requested core, drains all of them from the
`JoinSet`, and returns the final shared score.  In the code `duration_sec`
only determines when each worker's loop stops, i.e. how many iterations it
performs; the scheduler's choice of per-worker iteration counts (and which
workers panicked) is the `outcomes` parameter, one entry per spawned worker,
so `outcomes.length = cpu_cores`.  Built on the serialized `joinAll`, this
definition is retained only for the zero-worker run, where no merge occurs
and the serialization is inert; runs with workers, whose merge epilogues may
interleave, are modelled by `mergeStep` and `runMergeSchedule`. -/
def stress_test_cpu (duration_sec : Nat) (outcomes : List WorkerOutcome) :
    Nat × List String :=
  joinAll 0 [] outcomes

/-! ### Interleaved merges

`fibonnaci_compute_blocking` ends with `score.load` followed by `score.store`
(lib.rs lines 121-122).  Each of the two operations is atomic, but the pair is
not a single read-modify-write: the scheduler may run another worker's load or
store between them.  The model below executes the merge epilogues of several
workers under an explicit schedule. -/

/-- The merge epilogue of one worker, about to run lib.rs lines 121-122:
its converted score, the value its `load` returned (`none` before the load
executed), and whether its `store` has executed. -/
structure MergeWorker where
  converted : Nat
  loaded : Option Nat
  stored : Bool
  deriving Repr, DecidableEq

/-- A worker that finished its loop with converted score `c` and has not yet
started its merge. -/
def mergeWorkerInit (c : Nat) : MergeWorker :=
  { converted := c, loaded := none, stored := false }

/-- One scheduler-chosen step of a worker's merge epilogue: first its atomic
`load` of the shared score (lib.rs line 121), then its atomic `store` of
`cur_value + converted_score` (lib.rs line 122); once stored it is done. -/
def mergeStep (score : Nat) (w : MergeWorker) : Nat × MergeWorker :=
  match w.loaded with
  | none => (score, { w with loaded := some score })
  | some cur =>
      if w.stored then (score, w)
      else (cur + w.converted, { w with stored := true })

/-- Run the merge epilogues of the workers `ws` under the schedule `sched`
(each entry names the worker that executes its next step); returns the final
shared score and the workers. -/
def runMergeSchedule : Nat → List MergeWorker → List Nat → Nat × List MergeWorker
  | score, ws, [] => (score, ws)
  | score, ws, i :: rest =>
      match ws.get? i with
      | none => runMergeSchedule score ws rest
      | some w =>
          let sw := mergeStep score w
          runMergeSchedule sw.1 (ws.set i sw.2) rest

/-- The successive values of the shared score after each scheduled step. -/
def mergeTrace : Nat → List MergeWorker → List Nat → List Nat
  | _, _, [] => []
  | score, ws, i :: rest =>
      match ws.get? i with
      | none => score :: mergeTrace score ws rest
      | some w =>
          let sw := mergeStep score w
          sw.1 :: mergeTrace sw.1 (ws.set i sw.2) rest

/-! ## Application model: `src/main.rs`

The controller is a single-threaded event loop.  Wall-clock readings and
telemetry samples are inputs of the environment, so the functions below take
them as explicit arguments; instants are represented by the elapsed whole
seconds they induce. -/

/-- Enum `Mode` (main.rs lines 22-26): `Input` is the spec's Configuring
state, `Chart` is Running, `Finished` is the popup state. -/
inductive Mode where
  | Input
  | Chart
  | Finished
  deriving Repr, DecidableEq

/-- Enum `TimeUnit` (main.rs lines 28-31). -/
inductive TimeUnit where
  | Seconds
  | Minutes
  deriving Repr, DecidableEq

/-- Enum `InputFocusElement` (main.rs lines 33-38). -/
inductive InputFocusElement where
  | ValueInput
  | UnitSelection
  | CpuCountSelection
  | OkButton
  deriving Repr, DecidableEq

/-- Enum `PopupOption` (main.rs lines 61-64). -/
inductive PopupOption where
  | RunAgain
  | Exit
  deriving Repr, DecidableEq

/-- An `f64` value as the program can produce one: an exact rational (`f64`
rounding of sums/quotients is immaterial to the claims), NaN, or a signed
infinity. -/
inductive FpVal where
  | finite (q : ℚ)
  | nan
  | posInf
  | negInf
  deriving Repr, DecidableEq

/-- IEEE-754 division for the shapes the program exercises (finite numerator
and denominator): `0 / 0` is NaN, `x / 0` for `x ≠ 0` is a signed infinity,
otherwise the exact quotient. -/
def fdiv (a b : ℚ) : FpVal :=
  if b = 0 then
    if a = 0 then FpVal.nan
    else if a > 0 then FpVal.posInf
    else FpVal.negInf
  else FpVal.finite (a / b)

/-- Struct `CpuUsage` (lib.rs lines 10-13): one core's usage percent (an `f32`,
modelled exactly) and label. -/
structure CpuUsage where
  usage : ℚ
  name : String
  deriving Repr, DecidableEq

/-- Function `avg_percent_usage_cpu` (main.rs lines 163-169): sums the per-core usages
into `acc` and divides by the list length, with no guard for the empty
list. -/
def avg_percent_usage_cpu (cpus : List CpuUsage) : FpVal :=
  fdiv (cpus.foldl (fun acc i => acc + i.usage) 0) (cpus.length : ℚ)

/-- Struct `CpuExplosion` (lib.rs lines 48-51) as the controller sees it: the value
of its shared `stop_signal` flag. -/
structure CpuExplosion where
  stop_signal : Bool
  deriving Repr, DecidableEq

/-- Constructor `CpuExplosion::new()` (lib.rs lines 54-56): a fresh, unset stop flag. -/
def CpuExplosion.new : CpuExplosion := { stop_signal := false }

/-- Handle model: the `JoinHandle<u64>` of a spawned `stress_test_cpu` run as recorded in
`App::stress_test_handle` (main.rs line 57), with the run configuration it
was spawned with and the stop flag the spawned workers share.  The eventual
`u64` the task yields is never read by main.rs (the handle is only polled
with `is_finished` and dropped), so it is no part of the handle state; the
completion poll `tickPoll` receives it as an environment argument instead. -/
structure EngineHandle where
  duration_sec : Nat
  cpu_cores : Nat
  stop_signal : Bool
  deriving Repr, DecidableEq

/-- A side effect the controller performs on the engine.  `spawnRun` is
`tokio::spawn` of `stress_test_cpu` (main.rs lines 126-128); `abortRun` is
`JoinHandle::abort()` (main.rs lines 544, 668); `requestStop` would be a
store of `true` into the engine's `stop_signal` — no code in main.rs ever
performs it, which the C2 theorems make precise. -/
inductive EngineAction where
  | spawnRun (duration_sec : Nat) (cpu_cores : Nat)
  | abortRun
  | requestStop
  deriving Repr, DecidableEq

/-- The fields of `struct App` (main.rs lines 40-58) that carry state (the
two `Instant` fields and the refresh interval are environment clocks, passed
to the functions below as elapsed seconds / a refresh-due flag). -/
structure App where
  mode : Mode
  input_text : String
  selected_unit : TimeUnit
  chart_data : List (Nat × FpVal)
  start_time : Bool
  total_duration_secs : Nat
  elapsed_secs : Nat
  current_input_focus : InputFocusElement
  finished_popup_selected_option : PopupOption
  cpu_info_cached : List CpuUsage
  total_logical_cores : Nat
  selected_cpu_count : Nat
  stress_test : CpuExplosion
  stress_test_handle : Option EngineHandle
  deriving Repr, DecidableEq

/-- Method `App::reset_for_input` (main.rs lines 94-111).  `initial_cpus` is the
fresh sample the re-initialized `SystemUsage` returns.  Note what is *not*
here: nothing touches the old engine's stop flag or aborts the old handle —
the handle is merely overwritten with `None` and `stress_test` with a fresh
`CpuExplosion`. -/
def App.reset_for_input (a : App) (initial_cpus : List CpuUsage) : App :=
  { a with
      mode := Mode.Input,
      input_text := "",
      chart_data := [],
      start_time := false,
      total_duration_secs := 0,
      elapsed_secs := 0,
      current_input_focus := InputFocusElement.ValueInput,
      finished_popup_selected_option := PopupOption.RunAgain,
      stress_test_handle := none,
      stress_test := CpuExplosion.new,
      cpu_info_cached := initial_cpus,
      selected_cpu_count := 1 }

/-- Rust's `str::parse::<u64>`: an optional leading `+`, then one or more
ASCII digits, and the value must fit in a `u64`. -/
def parseU64 (s : String) : Option Nat :=
  let t :=
    match s.toList with
    | '+' :: rest => rest
    | l => l
  if t.length != 0 && t.all Char.isDigit then
    let v := t.foldl (fun acc c => acc * 10 + (c.toNat - 48)) 0
    if v < U64_SIZE then some v else none
  else none

/-- The duration in seconds computed by `App::set_total_duration` (main.rs
lines 116-119) from the parsed value: the value itself for seconds, `value *
60` (wrapping `u64` multiplication) for minutes. -/
def duration_in_secs (u : TimeUnit) (value : Nat) : Nat :=
  match u with
  | TimeUnit.Seconds => value
  | TimeUnit.Minutes => value * 60 % U64_SIZE

/-- Method `App::set_total_duration` (main.rs lines 114-133): parse the input text
as a `u64`; on success record the duration, start instant and elapsed 0,
spawn the stress-test run (sharing the current `stress_test`'s stop flag)
and switch to `Chart` mode; on failure overwrite the input text with
`"Invalid input"`.  Also returns the engine side effects performed. -/
def App.set_total_duration (a : App) : App × List EngineAction :=
  match parseU64 a.input_text with
  | some value =>
      let dur := duration_in_secs a.selected_unit value
      ({ a with
          total_duration_secs := dur,
          start_time := true,
          elapsed_secs := 0,
          stress_test_handle := some
            { duration_sec := dur, cpu_cores := a.selected_cpu_count,
              stop_signal := a.stress_test.stop_signal },
          mode := Mode.Chart },
        [EngineAction.spawnRun dur a.selected_cpu_count])
  | none => ({ a with input_text := "Invalid input" }, [])

/-- Method `App::update_data` (main.rs lines 135-160).  `new_elapsed` is
`(Instant::now() - start).as_secs()`; `cpus` is the sample `get_cpu_info`
returns for the chart branch; `refresh_due` tells whether
`last_cpu_refresh.elapsed() >= cpu_refresh_interval`, and `cpus2` is the
sample taken in that case. -/
def App.update_data (a : App) (new_elapsed : Nat) (cpus : List CpuUsage)
    (refresh_due : Bool) (cpus2 : List CpuUsage) : App :=
  let a1 :=
    if a.start_time then
      if new_elapsed > a.elapsed_secs then
        let chart_value := avg_percent_usage_cpu cpus
        let a2 := { a with
          elapsed_secs := new_elapsed,
          chart_data := a.chart_data ++ [(new_elapsed, chart_value)] }
        let max_data_points := 100
        if a2.chart_data.length > max_data_points then
          { a2 with chart_data := a2.chart_data.drop 1 }
        else a2
      else a
    else a
  if refresh_due then
    { a1 with cpu_info_cached := cpus2 }
  else a1

/-- A decoded `crossterm` key code, restricted to the codes main.rs
matches on. -/
inductive KeyCode where
  | char (c : Char)
  | backspace
  | tab
  | down
  | left
  | up
  | right
  | enter
  | esc
  deriving Repr, DecidableEq

/-- A key press event: the code and whether CONTROL is held. -/
structure KeyEvent where
  code : KeyCode
  ctrl : Bool
  deriving Repr, DecidableEq

/-- Arm `KeyCode::Down | KeyCode::Left` of of the `Mode::Input` match
(main.rs lines 584-604): toggle the unit when focus is on the unit selector;
decrement the selected core count (floored at 1) when focus is on the core
selector. -/
def App.cycleUnitOrDecrement (a : App) : App :=
  let a1 :=
    if a.current_input_focus = InputFocusElement.UnitSelection then
      { a with selected_unit :=
          match a.selected_unit with
          | TimeUnit.Seconds => TimeUnit.Minutes
          | TimeUnit.Minutes => TimeUnit.Seconds }
    else a
  if a1.current_input_focus = InputFocusElement.CpuCountSelection then
    if a1.selected_cpu_count > 1 then
      { a1 with selected_cpu_count := a1.selected_cpu_count - 1 }
    else a1
  else a1

/-- Arm `KeyCode::Up | KeyCode::Right` of of the `Mode::Input` match
(main.rs lines 605-624): toggle the unit when focus is on the unit selector;
increment the selected core count (capped at the logical core count) when
focus is on the core selector. -/
def App.cycleUnitOrIncrement (a : App) : App :=
  let a1 :=
    if a.current_input_focus = InputFocusElement.UnitSelection then
      { a with selected_unit :=
          match a.selected_unit with
          | TimeUnit.Seconds => TimeUnit.Minutes
          | TimeUnit.Minutes => TimeUnit.Seconds }
    else a
  if a1.current_input_focus = InputFocusElement.CpuCountSelection then
    if a1.selected_cpu_count < a1.total_logical_cores then
      { a1 with selected_cpu_count := a1.selected_cpu_count + 1 }
    else a1
  else a1

/-- The key handling of the event loop (main.rs lines 535-675): first the
universal quit keys, then a match on the current mode.  Returns the new app
state, the new value of the `running` flag, and the engine side effects
performed.  `initial_cpus` is the fresh telemetry sample consumed when a
branch calls `reset_for_input`. -/
def handleKey (a : App) (key : KeyEvent) (initial_cpus : List CpuUsage) :
    App × Bool × List EngineAction :=
  if key.code = KeyCode.char 'q' ∨ key.code = KeyCode.char 'Q' ∨
      (key.code = KeyCode.char 'c' ∧ key.ctrl = true) then
    (a, false,
      match a.stress_test_handle with
      | some _ => [EngineAction.abortRun]
      | none => [])
  else
    match a.mode with
    | Mode.Input =>
        match key.code with
        | KeyCode.char c =>
            if a.current_input_focus = InputFocusElement.ValueInput ∧
                c.isDigit then
              ({ a with input_text := a.input_text.push c }, true, [])
            else (a, true, [])
        | KeyCode.backspace =>
            if a.current_input_focus = InputFocusElement.ValueInput then
              ({ a with input_text := a.input_text.dropRight 1 }, true, [])
            else (a, true, [])
        | KeyCode.tab =>
            ({ a with current_input_focus :=
                match a.current_input_focus with
                | InputFocusElement.ValueInput =>
                    InputFocusElement.CpuCountSelection
                | InputFocusElement.UnitSelection =>
                    InputFocusElement.ValueInput
                | InputFocusElement.CpuCountSelection =>
                    InputFocusElement.OkButton
                | InputFocusElement.OkButton =>
                    InputFocusElement.UnitSelection }, true, [])
        | KeyCode.down =>
            (a.cycleUnitOrDecrement, true, [])
        | KeyCode.left =>
            (a.cycleUnitOrDecrement, true, [])
        | KeyCode.up =>
            (a.cycleUnitOrIncrement, true, [])
        | KeyCode.right =>
            (a.cycleUnitOrIncrement, true, [])
        | KeyCode.enter =>
            match a.current_input_focus with
            | InputFocusElement.ValueInput =>
                ({ a with current_input_focus :=
                    InputFocusElement.UnitSelection }, true, [])
            | InputFocusElement.UnitSelection =>
                ({ a with current_input_focus :=
                    InputFocusElement.CpuCountSelection }, true, [])
            | InputFocusElement.CpuCountSelection =>
                ({ a with current_input_focus :=
                    InputFocusElement.OkButton }, true, [])
            | InputFocusElement.OkButton =>
                let r := a.set_total_duration
                (r.1, true, r.2)
        | KeyCode.esc => (a, true, [])
    | Mode.Chart =>
        match key.code with
        | KeyCode.esc => (a.reset_for_input initial_cpus, true, [])
        | _ => (a, true, [])
    | Mode.Finished =>
        match key.code with
        | KeyCode.enter =>
            match a.finished_popup_selected_option with
            | PopupOption.RunAgain => (a.reset_for_input initial_cpus, true, [])
            | PopupOption.Exit => (a, false, [])
        | KeyCode.up | KeyCode.down | KeyCode.tab =>
            ({ a with finished_popup_selected_option :=
                match a.finished_popup_selected_option with
                | PopupOption.RunAgain => PopupOption.Exit
                | PopupOption.Exit => PopupOption.RunAgain }, true, [])
        | KeyCode.esc =>
            (a, false,
              match a.stress_test_handle with
              | some _ => [EngineAction.abortRun]
              | none => [])
        | _ => (a, true, [])

/-- The per-tick completion poll (main.rs lines 679-684): when a handle is
present and `is_finished` reports true while `running`, drop the handle and
switch to `Finished`.  `engine_result` is the `u64` the finished task
yielded; the code never awaits or reads it (the handle is overwritten with
`None`), so the resulting state cannot depend on it. -/
def tickPoll (a : App) (running : Bool) (is_finished : Bool)
    (engine_result : Nat) : App :=
  match a.stress_test_handle with
  | some _ =>
      if is_finished && running then
        { a with stress_test_handle := none, mode := Mode.Finished }
      else a
  | none => a

/-- The ChartSeries invariant: at most 100 points, strictly increasing
elapsed coordinates, all of them at most the recorded `elapsed_secs`. -/
def chartInv (a : App) : Prop :=
  a.chart_data.length ≤ 100 ∧
    List.Pairwise (· < ·) (a.chart_data.map Prod.fst) ∧
    ∀ p ∈ a.chart_data, p.1 ≤ a.elapsed_secs

/-- A concrete app state (4 logical cores, defaults as in `App::new` except
where a use site overrides a field). -/
def sampleApp : App :=
  { mode := Mode.Input,
    input_text := "",
    selected_unit := TimeUnit.Seconds,
    chart_data := [],
    start_time := false,
    total_duration_secs := 0,
    elapsed_secs := 0,
    current_input_focus := InputFocusElement.UnitSelection,
    finished_popup_selected_option := PopupOption.RunAgain,
    cpu_info_cached := [],
    total_logical_cores := 4,
    selected_cpu_count := 1,
    stress_test := CpuExplosion.new,
    stress_test_handle := none }

/-- A concrete app in the `Running` state: chart mode, a 60 s run on 2 cores
in flight, its shared stop flag unset. -/
def runningApp : App :=
  { sampleApp with
      mode := Mode.Chart,
      start_time := true,
      total_duration_secs := 60,
      selected_cpu_count := 2,
      stress_test_handle := some
        { duration_sec := 60, cpu_cores := 2, stop_signal := false } }

/-- A concrete `Configuring` app with duration text `"0"` and focus on the
OK button. -/
def zeroInputApp : App :=
  { sampleApp with
      input_text := "0",
      current_input_focus := InputFocusElement.OkButton }

/-- A concrete `Configuring` app with non-numeric duration text `"abc"` and
focus on the OK button. -/
def invalidInputApp : App :=
  { sampleApp with
      input_text := "abc",
      current_input_focus := InputFocusElement.OkButton }

/-- A concrete `Running` app one second in, with one chart point. -/
def chartApp : App :=
  { sampleApp with
      mode := Mode.Chart,
      start_time := true,
      total_duration_secs := 10,
      elapsed_secs := 1,
      chart_data := [(1, FpVal.finite 50)],
      stress_test_handle := some
        { duration_sec := 10, cpu_cores := 1, stop_signal := false } }

/-- Loop invariant of the score-coarsening logic: after `n` iterations the
pending sub-unit remainder is `n % SCORE_UNIT` and the converted score is
`n / SCORE_UNIT`. -/
theorem workerRun_score (n : Nat) :
    (workerRun n).local_score = n % SCORE_UNIT ∧
    (workerRun n).converted_score = n / SCORE_UNIT := by
  induction n with
  | zero => simp [workerRun, workerInit]
  | succ k ih =>
    obtain ⟨hl, hc⟩ := ih
    have hstep : workerRun (k + 1) = workerStep (workerRun k) := by
      simp [workerRun, Function.iterate_succ_apply']
    have hu : 0 < SCORE_UNIT := by norm_num [SCORE_UNIT]
    by_cases hcase : k % SCORE_UNIT + 1 ≥ SCORE_UNIT
    · -- the remainder rolls over: `k % SCORE_UNIT = SCORE_UNIT - 1`
      have hlt : k % SCORE_UNIT < SCORE_UNIT := Nat.mod_lt _ hu
      have heq : k % SCORE_UNIT + 1 = SCORE_UNIT := le_antisymm hlt hcase
      have hmod : (k + 1) % SCORE_UNIT = 0 := by
        have : (k + 1) % SCORE_UNIT = (k % SCORE_UNIT + 1) % SCORE_UNIT := by
          conv_lhs => rw [← Nat.mod_add_mod]
        rw [this, heq, Nat.mod_self]
      have hdiv : (k + 1) / SCORE_UNIT = k / SCORE_UNIT + 1 :=
        Nat.succ_div_of_dvd (Nat.dvd_of_mod_eq_zero hmod)
      rw [hstep, workerStep]
      simp only [hl, hc, if_pos hcase]
      exact ⟨hmod.symm, hdiv.symm⟩
    · -- no rollover
      have hmod : (k + 1) % SCORE_UNIT = k % SCORE_UNIT + 1 := by
        have : (k + 1) % SCORE_UNIT = (k % SCORE_UNIT + 1) % SCORE_UNIT := by
          conv_lhs => rw [← Nat.mod_add_mod]
        rw [this, Nat.mod_eq_of_lt (by omega)]
      have hdiv : (k + 1) / SCORE_UNIT = k / SCORE_UNIT := by
        refine Nat.succ_div_of_not_dvd fun hdvd => ?_
        have := Nat.mod_eq_zero_of_dvd hdvd
        omega
      rw [hstep, workerStep]
      simp only [hl, hc, if_neg hcase]
      exact ⟨hmod.symm, hdiv.symm⟩

/-- Claim C1, code-bug evidence: per worker, the loop does coarsen its raw
iteration count to `floor(count / SCORE_UNIT)` exactly as claimed (5,000,000
iterations yield 5 score units, 3,000,000 yield 3), but the whole-run
equality the claim states fails on the program: with the two merge epilogues
interleaved — both workers execute their atomic `load` of the shared score
(each reading 0) before either executes its `store` (lib.rs lines 121-122) —
the run returns 3, not the sum of per-worker floors 8, because worker 0's
units are lost.  The non-interleaved schedule of the same two workers does
return the claimed sum, showing the claim is exactly the intended semantics
that the non-atomic merge breaks.  (The run is spelled out: each worker's
loop result feeds `mergeWorkerInit`, and `runMergeSchedule` executes the
epilogues under the given interleaving.) -/
theorem c1_lost_merge_breaks_sum_of_floors :
    (workerRun 5000000).converted_score = 5000000 / SCORE_UNIT ∧
      (workerRun 3000000).converted_score = 3000000 / SCORE_UNIT ∧
      ([5000000, 3000000].map (fun n => n / SCORE_UNIT)).sum = 8 ∧
      (runMergeSchedule 0 ([5000000, 3000000].map
          fun n => mergeWorkerInit (workerRun n).converted_score)
          [0, 1, 0, 1]).1 = 3 ∧
      (runMergeSchedule 0 ([5000000, 3000000].map
          fun n => mergeWorkerInit (workerRun n).converted_score)
          [0, 1, 0, 1]).1 ≠
        ([5000000, 3000000].map (fun n => n / SCORE_UNIT)).sum ∧
      (runMergeSchedule 0 ([5000000, 3000000].map
          fun n => mergeWorkerInit (workerRun n).converted_score)
          [0, 0, 1, 1]).1 =
        ([5000000, 3000000].map (fun n => n / SCORE_UNIT)).sum := by
  have h5 : (workerRun 5000000).converted_score = 5 :=
    (workerRun_score 5000000).2.trans (by decide)
  have h3 : (workerRun 3000000).converted_score = 3 :=
    (workerRun_score 3000000).2.trans (by decide)
  have hmap : ([5000000, 3000000].map
      fun n => mergeWorkerInit (workerRun n).converted_score) =
      [mergeWorkerInit 5, mergeWorkerInit 3] := by
    rw [List.map_cons, List.map_cons, List.map_nil, h5, h3]
  refine ⟨(workerRun_score 5000000).2, (workerRun_score 3000000).2,
    by decide, ?_, ?_, ?_⟩
  · rw [hmap]
    decide
  · rw [hmap]
    decide
  · rw [hmap]
    decide

/-- Claim C5, code-bug evidence: with three spawned workers — worker 0
completing 5,000,000 iterations, worker 1 panicking before its merge,
worker 2 completing 3,000,000 iterations — the join barrier drains all three
tasks, the panic is caught and logged exactly once (`eprintln!`, lib.rs line
76) and contributes zero, and the run returns normally, all as claimed; the
two surviving workers enter their merge epilogues carrying converted scores
5 and 3 (third conjunct).  But when those two epilogues interleave (both
load the shared 0 before either stores, lib.rs lines 121-122) the run
returns 3, not the other workers' contributions 5 + 3: one surviving
worker's merge is lost.  The non-interleaved schedule of the same outcomes
does return 5 + 3. -/
theorem c5_panic_absorbed_but_merge_lost :
    ([WorkerOutcome.completed 5000000, WorkerOutcome.panicked,
        WorkerOutcome.completed 3000000].filterMap fun o =>
          match o with
          | WorkerOutcome.completed _ => none
          | WorkerOutcome.panicked => some "A task panicked") =
        ["A task panicked"] ∧
      contribution WorkerOutcome.panicked = 0 ∧
      ([WorkerOutcome.completed 5000000, WorkerOutcome.panicked,
          WorkerOutcome.completed 3000000].filterMap fun o =>
            match o with
            | WorkerOutcome.completed n =>
                some (mergeWorkerInit (workerRun n).converted_score)
            | WorkerOutcome.panicked => none) =
        [mergeWorkerInit 5, mergeWorkerInit 3] ∧
      (runMergeSchedule 0
          ([WorkerOutcome.completed 5000000, WorkerOutcome.panicked,
            WorkerOutcome.completed 3000000].filterMap fun o =>
              match o with
              | WorkerOutcome.completed n =>
                  some (mergeWorkerInit (workerRun n).converted_score)
              | WorkerOutcome.panicked => none)
          [0, 1, 0, 1]).1 = 3 ∧
      (runMergeSchedule 0
          ([WorkerOutcome.completed 5000000, WorkerOutcome.panicked,
            WorkerOutcome.completed 3000000].filterMap fun o =>
              match o with
              | WorkerOutcome.completed n =>
                  some (mergeWorkerInit (workerRun n).converted_score)
              | WorkerOutcome.panicked => none)
          [0, 1, 0, 1]).1 ≠ 5 + 3 ∧
      (runMergeSchedule 0
          ([WorkerOutcome.completed 5000000, WorkerOutcome.panicked,
            WorkerOutcome.completed 3000000].filterMap fun o =>
              match o with
              | WorkerOutcome.completed n =>
                  some (mergeWorkerInit (workerRun n).converted_score)
              | WorkerOutcome.panicked => none)
          [0, 0, 1, 1]).1 = 5 + 3 := by
  have h5 : (workerRun 5000000).converted_score = 5 :=
    (workerRun_score 5000000).2.trans (by decide)
  have h3 : (workerRun 3000000).converted_score = 3 :=
    (workerRun_score 3000000).2.trans (by decide)
  have hfm : ([WorkerOutcome.completed 5000000, WorkerOutcome.panicked,
      WorkerOutcome.completed 3000000].filterMap fun o =>
        match o with
        | WorkerOutcome.completed n =>
            some (mergeWorkerInit (workerRun n).converted_score)
        | WorkerOutcome.panicked => none) =
      [mergeWorkerInit 5, mergeWorkerInit 3] := by
    simp only [List.filterMap_cons, List.filterMap_nil]
    rw [h5, h3]
  refine ⟨by decide, rfl, hfm, ?_, ?_, ?_⟩
  · rw [hfm]
    decide
  · rw [hfm]
    decide
  · rw [hfm]
    decide

/-- Claim C8, code-bug evidence: the merge of a worker's converted score into
the shared `AtomicU64` is a separate `load` followed by a `store` (lib.rs
lines 121-122), not one atomic read-modify-write.  With two workers holding
converted scores 5 and 3, the schedule "worker 0 loads, worker 1 loads,
worker 0 stores, worker 1 stores" makes the shared score end at 3, losing
worker 0's merge (the claimed value is 5 + 3 = 8), and the observed shared
values 0, 0, 5, 3 are not monotonically non-decreasing; the fully serialized
schedule of the same workers does yield 8. -/
theorem c8_lost_update_on_interleaved_merge :
    (runMergeSchedule 0 [mergeWorkerInit 5, mergeWorkerInit 3]
        [0, 1, 0, 1]).1 = 3 ∧
      (runMergeSchedule 0 [mergeWorkerInit 5, mergeWorkerInit 3]
          [0, 1, 0, 1]).1 ≠ 5 + 3 ∧
      mergeTrace 0 [mergeWorkerInit 5, mergeWorkerInit 3] [0, 1, 0, 1] =
        [0, 0, 5, 3] ∧
      ¬ List.Chain' (· ≤ ·)
        (mergeTrace 0 [mergeWorkerInit 5, mergeWorkerInit 3] [0, 1, 0, 1]) ∧
      (runMergeSchedule 0 [mergeWorkerInit 5, mergeWorkerInit 3]
          [0, 0, 1, 1]).1 = 5 + 3 := by
  refine ⟨rfl, by decide, rfl, ?_, rfl⟩
  intro h
  have h53 : (5 : Nat) ≤ 3 := by
    have : mergeTrace 0 [mergeWorkerInit 5, mergeWorkerInit 3] [0, 1, 0, 1] =
        [0, 0, 5, 3] := rfl
    rw [this] at h
    exact (List.chain'_cons.mp (List.chain'_cons.mp
      (List.chain'_cons.mp h).2).2).1
  omega

/-- Claim C9: the function `stress_test_cpu` accepts `cpu_cores = 0` without error: the spawn
loop runs zero times, the join loop drains an empty `JoinSet`, and the
returned aggregate score is exactly 0 (with an empty error log). -/
theorem c9_zero_cores_returns_zero (duration_sec : Nat) :
    stress_test_cpu duration_sec [] = (0, []) := rfl

/-- Claim C2, counterexample: in the `Running` state, the cancel/back key
(Esc in chart mode) does transition to `Configuring` and discards the handle,
but it requests no cancellation at all: the engine side-effect list is empty
— no abort and no store into the engine's `stop_signal` — so the spawned
workers keep running until their duration elapses. -/
theorem c2_cancel_requests_nothing_counterexample :
    (handleKey runningApp { code := KeyCode.esc, ctrl := false } []).1.mode =
        Mode.Input ∧
      (handleKey runningApp { code := KeyCode.esc, ctrl := false }
          []).1.stress_test_handle = none ∧
      (handleKey runningApp { code := KeyCode.esc, ctrl := false } []).2.2 =
        [] ∧
      EngineAction.requestStop ∉
        (handleKey runningApp { code := KeyCode.esc, ctrl := false } []).2.2 ∧
      EngineAction.abortRun ∉
        (handleKey runningApp { code := KeyCode.esc, ctrl := false } []).2.2 := by
  decide

/-- Claim C2, amended: for every session in the `Running` state, an external
cancel/back request (Esc) transitions the session to `Configuring` and
discards the still-running engine handle, but does *not* request StressEngine
cancellation: the key produces no engine side effect (no abort, no stop-flag
store), and the fresh `stress_test` starts with an unset flag. -/
theorem c2_back_discards_handle_without_cancel (a : App)
    (cpus : List CpuUsage) (h : a.mode = Mode.Chart) :
    handleKey a { code := KeyCode.esc, ctrl := false } cpus =
        (a.reset_for_input cpus, true, []) ∧
      (a.reset_for_input cpus).mode = Mode.Input ∧
      (a.reset_for_input cpus).stress_test_handle = none ∧
      (a.reset_for_input cpus).stress_test.stop_signal = false := by
  refine ⟨?_, rfl, rfl, rfl⟩
  simp [handleKey, h]

/-- Witness for the amended C2 at the concrete running app. -/
theorem c2_back_discards_handle_without_cancel_witness :
    runningApp.mode = Mode.Chart ∧
      (handleKey runningApp { code := KeyCode.esc, ctrl := false } [] =
          (runningApp.reset_for_input [], true, []) ∧
        (runningApp.reset_for_input []).mode = Mode.Input ∧
        (runningApp.reset_for_input []).stress_test_handle = none ∧
        (runningApp.reset_for_input []).stress_test.stop_signal = false) :=
  ⟨by decide, c2_back_discards_handle_without_cancel runningApp [] (by decide)⟩

/-- Claim C3, counterexample: when the engine run completes while `Running`,
the session does transition to `Finished`, but the final aggregate score is
*not* captured: the controller state after the poll is identical whether the
finished task yielded 42 or 7 (the `u64` is dropped with the handle, and
`App` has no field that could hold it). -/
theorem c3_score_not_captured_counterexample :
    (tickPoll runningApp true true 42).mode = Mode.Finished ∧
      (tickPoll runningApp true true 42).stress_test_handle = none ∧
      tickPoll runningApp true true 42 = tickPoll runningApp true true 7 := by
  exact ⟨rfl, rfl, rfl⟩

/-- Claim C3, amended: whenever the engine run completes while a handle is
outstanding and the loop is still running, the session transitions to
`Finished` and the handle is dropped, but the engine's final aggregate score
is discarded: the resulting controller state does not depend on it. -/
theorem c3_finish_drops_handle_and_score (a : App) (h : EngineHandle)
    (hh : a.stress_test_handle = some h) (r : Nat) :
    (tickPoll a true true r).mode = Mode.Finished ∧
      (tickPoll a true true r).stress_test_handle = none ∧
      ∀ r2 : Nat, tickPoll a true true r = tickPoll a true true r2 := by
  refine ⟨?_, ?_, fun r2 => rfl⟩ <;> simp [tickPoll, hh]

/-- Witness for the amended C3 at the concrete running app. -/
theorem c3_finish_drops_handle_and_score_witness :
    runningApp.stress_test_handle =
        some { duration_sec := 60, cpu_cores := 2, stop_signal := false } ∧
      ((tickPoll runningApp true true 42).mode = Mode.Finished ∧
        (tickPoll runningApp true true 42).stress_test_handle = none ∧
        ∀ r2 : Nat,
          tickPoll runningApp true true 42 = tickPoll runningApp true true r2) :=
  ⟨by decide,
    c3_finish_drops_handle_and_score runningApp
      { duration_sec := 60, cpu_cores := 2, stop_signal := false } (by decide) 42⟩

/-- Claim C4, counterexample: confirming with duration text `"0"` spawns a
StressEngine run whose duration is 0, which is not `> 0`: the controller
validates only that the text parses as a `u64`, not positivity. -/
theorem c4_zero_duration_run_counterexample :
    (handleKey zeroInputApp { code := KeyCode.enter, ctrl := false } []).2.2 =
        [EngineAction.spawnRun 0 1] ∧
      ¬ (0 : Nat) > 0 := by
  decide

/-- Claim C4, amended: an input that does not parse as a `u64` never starts a
run (no spawn, mode and handle unchanged); an input that parses as `v` always
starts exactly one run whose duration is `v` converted to seconds — a value
that is ≥ 0 but can be 0 (e.g. input `"0"`). -/
theorem c4_spawn_duration_is_parsed_input (a : App) :
    (parseU64 a.input_text = none ∧ a.set_total_duration.2 = [] ∧
        a.set_total_duration.1.mode = a.mode ∧
        a.set_total_duration.1.stress_test_handle = a.stress_test_handle) ∨
      (∃ v, parseU64 a.input_text = some v ∧
        a.set_total_duration.2 =
          [EngineAction.spawnRun (duration_in_secs a.selected_unit v)
            a.selected_cpu_count] ∧
        a.set_total_duration.1.mode = Mode.Chart) := by
  cases hp : parseU64 a.input_text with
  | none =>
      left
      refine ⟨rfl, ?_, ?_, ?_⟩ <;> simp [App.set_total_duration, hp]
  | some v =>
      right
      exact ⟨v, rfl, by simp [App.set_total_duration, hp], by
        simp [App.set_total_duration, hp]⟩

/-- Claim C6: in the Configuring state with focus on the OK button and a duration text
that does not parse (e.g. `"abc"`), confirm leaves the session exactly as it
was except that the input text is replaced by the error message
`"Invalid input"`: still in `Input` mode, no engine spawned, and the selected
unit, selected core count and chart untouched (the result is a record update
of `a` touching only `input_text`). -/
theorem c6_invalid_input_stays_configuring (a : App) (cpus : List CpuUsage)
    (hm : a.mode = Mode.Input)
    (hf : a.current_input_focus = InputFocusElement.OkButton)
    (hp : parseU64 a.input_text = none) :
    handleKey a { code := KeyCode.enter, ctrl := false } cpus =
      ({ a with input_text := "Invalid input" }, true, []) := by
  simp [handleKey, hm, hf, App.set_total_duration, hp]

/-- Witness for C6 at the concrete app with input `"abc"`. -/
theorem c6_invalid_input_stays_configuring_witness :
    invalidInputApp.mode = Mode.Input ∧
      invalidInputApp.current_input_focus = InputFocusElement.OkButton ∧
      parseU64 invalidInputApp.input_text = none ∧
      handleKey invalidInputApp { code := KeyCode.enter, ctrl := false } [] =
        ({ invalidInputApp with input_text := "Invalid input" }, true, []) :=
  ⟨by decide, by decide, by decide,
    c6_invalid_input_stays_configuring invalidInputApp []
      (by decide) (by decide) (by decide)⟩

theorem update_data_chart_data (a : App) (n : Nat) (cpus : List CpuUsage)
    (refresh_due : Bool) (cpus2 : List CpuUsage) (hs : a.start_time = true)
    (hn : n > a.elapsed_secs) :
    (a.update_data n cpus refresh_due cpus2).chart_data =
      (if (a.chart_data ++ [(n, avg_percent_usage_cpu cpus)]).length > 100 then
        (a.chart_data ++ [(n, avg_percent_usage_cpu cpus)]).drop 1
      else a.chart_data ++ [(n, avg_percent_usage_cpu cpus)]) ∧
    (a.update_data n cpus refresh_due cpus2).elapsed_secs = n := by
  by_cases hover : 100 < a.chart_data.length + 1 <;>
    cases refresh_due <;>
    simp [App.update_data, hs, hn, hover, List.length_append]

theorem update_data_chart_data_of_stale (a : App) (n : Nat)
    (cpus : List CpuUsage) (refresh_due : Bool) (cpus2 : List CpuUsage)
    (h : a.start_time = false ∨ ¬ n > a.elapsed_secs) :
    (a.update_data n cpus refresh_due cpus2).chart_data = a.chart_data ∧
    (a.update_data n cpus refresh_due cpus2).elapsed_secs = a.elapsed_secs := by
  cases h with
  | inl hs => cases refresh_due <;> simp [App.update_data, hs]
  | inr hn => cases hs : a.start_time <;> cases refresh_due <;>
      simp [App.update_data, hn, hs]

/-- Claim C7: the method `update_data` preserves the ChartSeries invariant — the series
never exceeds 100 points, its elapsed coordinates are strictly increasing in
insertion order, and all of them are bounded by the recorded elapsed time —
and when the cap is exceeded the evicted entry is the head of the series,
i.e. the oldest one. -/
theorem c7_chart_cap_eviction_strict_increase (a : App) (n : Nat)
    (cpus : List CpuUsage) (refresh_due : Bool) (cpus2 : List CpuUsage)
    (hinv : chartInv a) :
    chartInv (a.update_data n cpus refresh_due cpus2) ∧
      (a.start_time = true → n > a.elapsed_secs → a.chart_data.length = 100 →
        (a.update_data n cpus refresh_due cpus2).chart_data =
          a.chart_data.tail ++ [(n, avg_percent_usage_cpu cpus)]) := by
  obtain ⟨hlen, hpw, hle⟩ := hinv
  by_cases hs : a.start_time = true
  · by_cases hn : n > a.elapsed_secs
    · obtain ⟨hchart, helap⟩ :=
        update_data_chart_data a n cpus refresh_due cpus2 hs hn
      have hpush : List.Pairwise (· < ·)
          ((a.chart_data ++ [(n, avg_percent_usage_cpu cpus)]).map Prod.fst) := by
        rw [List.map_append, List.pairwise_append]
        refine ⟨hpw, List.pairwise_singleton _ _, ?_⟩
        intro x hx y hy
        rw [List.map_singleton, List.mem_singleton] at hy
        subst hy
        obtain ⟨p, hp, rfl⟩ := List.mem_map.mp hx
        exact lt_of_le_of_lt (hle p hp) hn
      have hmem : ∀ p ∈ a.chart_data ++ [(n, avg_percent_usage_cpu cpus)],
          p.1 ≤ n := by
        intro p hp
        rcases List.mem_append.mp hp with hpold | hpnew
        · exact le_of_lt (lt_of_le_of_lt (hle p hpold) hn)
        · rw [List.mem_singleton] at hpnew
          subst hpnew
          exact le_refl n
      by_cases hover :
          (a.chart_data ++ [(n, avg_percent_usage_cpu cpus)]).length > 100
      · rw [if_pos hover] at hchart
        refine ⟨⟨?_, ?_, ?_⟩, ?_⟩
        · rw [hchart, List.length_drop, List.length_append,
            List.length_singleton]
          omega
        · rw [hchart, List.map_drop]
          exact hpush.sublist (List.drop_sublist 1 _)
        · intro p hp
          rw [helap]
          exact hmem p (List.mem_of_mem_drop (hchart ▸ hp))
        · intro _ _ hlen100
          rw [hchart, List.drop_append_of_le_length (by omega),
            List.drop_one]
      · rw [if_neg hover] at hchart
        refine ⟨⟨?_, ?_, ?_⟩, ?_⟩
        · rw [hchart]
          rw [List.length_append, List.length_singleton] at hover ⊢
          omega
        · rw [hchart]
          exact hpush
        · intro p hp
          rw [helap]
          exact hmem p (hchart ▸ hp)
        · intro _ _ hlen100
          exfalso
          rw [List.length_append, List.length_singleton, hlen100] at hover
          omega
    · obtain ⟨hchart, helap⟩ := update_data_chart_data_of_stale a n cpus
        refresh_due cpus2 (Or.inr hn)
      exact ⟨⟨hchart ▸ hlen, hchart ▸ hpw, fun p hp =>
          helap ▸ hle p (hchart ▸ hp)⟩,
        fun _ hn2 _ => absurd hn2 hn⟩
  · have hs' : a.start_time = false := by
      cases h : a.start_time
      · rfl
      · exact absurd h hs
    obtain ⟨hchart, helap⟩ := update_data_chart_data_of_stale a n cpus
      refresh_due cpus2 (Or.inl hs')
    exact ⟨⟨hchart ▸ hlen, hchart ▸ hpw, fun p hp =>
        helap ▸ hle p (hchart ▸ hp)⟩,
      fun hs2 _ _ => absurd hs2 hs⟩

/-- Witness for C7: one tick on the concrete running app with one chart
point, elapsed advancing from 1 to 2. -/
theorem c7_chart_cap_eviction_strict_increase_witness :
    chartInv chartApp ∧
      (chartInv (chartApp.update_data 2 [] false []) ∧
        (chartApp.start_time = true → 2 > chartApp.elapsed_secs →
          chartApp.chart_data.length = 100 →
          (chartApp.update_data 2 [] false []).chart_data =
            chartApp.chart_data.tail ++ [(2, avg_percent_usage_cpu [])])) :=
  ⟨⟨by decide, by decide, by decide⟩,
    c7_chart_cap_eviction_strict_increase chartApp 2 [] false []
      ⟨by decide, by decide, by decide⟩⟩

/-- Claim C10: the function `avg_percent_usage_cpu` divides the summed per-core usages by
the list length with no emptiness guard: on a non-empty list it returns the
arithmetic mean, on the empty list it computes `0.0 / 0.0`, i.e. NaN — and a
tick of `update_data` whose sample is the empty list appends that NaN to the
chart series. -/
theorem c10_avg_empty_is_nan_appended (cpus : List CpuUsage) (a : App)
    (n : Nat) (refresh_due : Bool) (cpus2 : List CpuUsage)
    (hne : cpus ≠ []) (hs : a.start_time = true) (hn : n > a.elapsed_secs) :
    avg_percent_usage_cpu cpus =
        FpVal.finite ((cpus.foldl (fun acc i => acc + i.usage) 0) /
          (cpus.length : ℚ)) ∧
      avg_percent_usage_cpu [] = FpVal.nan ∧
      (n, FpVal.nan) ∈ (a.update_data n [] refresh_due cpus2).chart_data := by
  have hnan : avg_percent_usage_cpu [] = FpVal.nan := by
    simp [avg_percent_usage_cpu, fdiv]
  refine ⟨?_, hnan, ?_⟩
  · rw [avg_percent_usage_cpu, fdiv]
    have hlen : (cpus.length : ℚ) ≠ 0 := by
      rw [Nat.cast_ne_zero]
      intro h0
      exact hne (List.length_eq_zero.mp h0)
    rw [if_neg hlen]
  · obtain ⟨hchart, _⟩ := update_data_chart_data a n [] refresh_due cpus2 hs hn
    rw [hchart, hnan]
    by_cases hover : (a.chart_data ++ [(n, FpVal.nan)]).length > 100
    · rw [if_pos hover,
        List.drop_append_of_le_length (by
          rw [List.length_append, List.length_singleton] at hover
          omega)]
      exact List.mem_append_right _ (List.mem_singleton.mpr rfl)
    · rw [if_neg hover]
      exact List.mem_append_right _ (List.mem_singleton.mpr rfl)

/-- Witness for C10: a one-core sample and the concrete running app. -/
theorem c10_avg_empty_is_nan_appended_witness :
    ([⟨30, "cpu0"⟩] : List CpuUsage) ≠ [] ∧
      chartApp.start_time = true ∧
      2 > chartApp.elapsed_secs ∧
      (avg_percent_usage_cpu [⟨30, "cpu0"⟩] =
          FpVal.finite ((([⟨30, "cpu0"⟩] : List CpuUsage).foldl
            (fun acc i => acc + i.usage) 0) /
            (([⟨30, "cpu0"⟩] : List CpuUsage).length : ℚ)) ∧
        avg_percent_usage_cpu [] = FpVal.nan ∧
        (2, FpVal.nan) ∈ (chartApp.update_data 2 [] false []).chart_data) :=
  ⟨by decide, by decide, by decide,
    c10_avg_empty_is_nan_appended [⟨30, "cpu0"⟩] chartApp 2 false []
      (by decide) (by decide) (by decide)⟩

end MdRepo
